import Mathlib

/-!
A verification development for the `raytracer_rs` rendering engine.

The definitions below are a shallow embedding of the Rust sources of the
`raytrace-lib` crate (the engine lineage whose files the claims cite):
`vec3.rs`, `color.rs`, `primitive.rs`, `ray.rs`, `camera.rs`, `material.rs`,
`light.rs`, `object.rs` and `lib.rs`.  `f64` values are modelled as real
numbers, `Option`/`Result` as `Option`/`Except`, imperative loops as folds in
iteration order.  Rust's truncating `i64` division is `Int.tdiv`, and
`f64::min`/`f64::sqrt`/`f64::tan` are `min`/`Real.sqrt`/`Real.tan`.
-/

namespace Raytrace

noncomputable section

open Classical

/-- Precision of comparisons (`FLOAT_EPS` in `raytrace-lib/src/lib.rs`). -/
def FLOAT_EPS : ℝ := 0.000001

/-- Vector in 3d-space (`vec3.rs`). -/
@[ext]
structure Vec3 where
  x : ℝ
  y : ℝ
  z : ℝ

namespace Vec3

/-- `Vec3::new`. -/
def new (x y z : ℝ) : Vec3 := ⟨x, y, z⟩

/-- `Vec3::cross`. -/
def cross (v o : Vec3) : Vec3 :=
  ⟨v.y * o.z - v.z * o.y, v.z * o.x - v.x * o.z, v.x * o.y - v.y * o.x⟩

/-- `Vec3::dot`. -/
def dot (v o : Vec3) : ℝ := v.x * o.x + v.y * o.y + v.z * o.z

/-- `Vec3::zero`. -/
def zero : Vec3 := ⟨0, 0, 0⟩

/-- `Vec3::one`. -/
def one : Vec3 := ⟨1, 1, 1⟩

/-- `Vec3::length_squared`. -/
def length_squared (v : Vec3) : ℝ := v.x * v.x + v.y * v.y + v.z * v.z

/-- `Vec3::length`. -/
def length (v : Vec3) : ℝ := Real.sqrt v.length_squared

/-- `Vec3::normalize` (division by the length; a zero vector is the caller's
responsibility, as in the source). -/
def normalize (v : Vec3) : Vec3 :=
  let mag := v.length
  ⟨v.x / mag, v.y / mag, v.z / mag⟩

/-- `impl Sub for Vec3`. -/
instance : Sub Vec3 := ⟨fun a b => ⟨a.x - b.x, a.y - b.y, a.z - b.z⟩⟩

/-- `impl Add for Vec3`. -/
instance : Add Vec3 := ⟨fun a b => ⟨a.x + b.x, a.y + b.y, a.z + b.z⟩⟩

/-- `impl Neg for Vec3`. -/
instance : Neg Vec3 := ⟨fun a => ⟨-a.x, -a.y, -a.z⟩⟩

/-- `impl Mul<f64> for Vec3`. -/
instance : HMul Vec3 ℝ Vec3 := ⟨fun v s => ⟨v.x * s, v.y * s, v.z * s⟩⟩

/-- `impl Mul<Vec3> for f64`. -/
instance : HMul ℝ Vec3 Vec3 := ⟨fun s v => ⟨v.x * s, v.y * s, v.z * s⟩⟩

/-- `Vec3::direction_to`. -/
def direction_to (v o : Vec3) : Vec3 := (o - v).normalize

/-- `Vec3::reflect`: `self - 2.0 * normal * normal.dot(self)`. -/
def reflect (v normal : Vec3) : Vec3 :=
  v - ((2 : ℝ) * normal) * (normal.dot v)

/-- `Vec3::is_unit`: the Rust check is `self.length() - 1.0 < FLOAT_EPS`
(no absolute value). -/
def is_unit (v : Vec3) : Prop := v.length - 1 < FLOAT_EPS

/-- `impl PartialEq for Vec3`: component-wise comparison below `FLOAT_EPS`. -/
def approxEq (a b : Vec3) : Prop :=
  |a.x - b.x| < FLOAT_EPS ∧ |a.y - b.y| < FLOAT_EPS ∧ |a.z - b.z| < FLOAT_EPS

end Vec3

/-- A 3d rotation matrix (`rotation.rs`), stored row by row:
`matrix = [[r0.x, r0.y, r0.z], [r1.x, ...], ...]`. -/
structure Rotation where
  r0 : Vec3
  r1 : Vec3
  r2 : Vec3

/-- `Vec3::rotate`: multiply the matrix with the column vector. -/
def Vec3.rotate (v : Vec3) (rot : Rotation) : Vec3 :=
  ⟨rot.r0.x * v.x + rot.r0.y * v.y + rot.r0.z * v.z,
   rot.r1.x * v.x + rot.r1.y * v.y + rot.r1.z * v.z,
   rot.r2.x * v.x + rot.r2.y * v.y + rot.r2.z * v.z⟩

/-- The direction of "up" (`UP_DIRECTION` in `lib.rs`). -/
def UP_DIRECTION : Vec3 := ⟨0, 1, 0⟩

/-- Modelled from the spec: `raytrace-lib` declares `pub mod rotation` but its
`rotation.rs` is absent from the available sources.  Per the spec, the rotation
is an orthonormal basis "derived deterministically from a single direction
vector and a fixed global up vector": the view direction is normalized, the
x-axis is `normalize(up x v)`, the y-axis is `v x x_axis`, and the basis
vectors form the matrix columns (this agrees with the sibling lineage's
`src/rotation.rs`, which is present). -/
def Rotation.fromVec3 (dir : Vec3) : Rotation :=
  let v := dir.normalize
  let xa := (UP_DIRECTION.cross v).normalize
  let ya := v.cross xa
  ⟨⟨xa.x, ya.x, v.x⟩, ⟨xa.y, ya.y, v.y⟩, ⟨xa.z, ya.z, v.z⟩⟩

/-- RGB color with channels in `[0, 1]` (`color.rs`). -/
@[ext]
structure Color where
  r : ℝ
  g : ℝ
  b : ℝ

namespace Color

/-- `Color::new_f`. -/
def new_f (r g b : ℝ) : Color := ⟨r, g, b⟩

/-- `Color::zero`. -/
def zero : Color := ⟨0, 0, 0⟩

/-- `Color::scale`: each channel is multiplied and clamped with `.min(1.0)`. -/
def scale (c : Color) (s : ℝ) : Color :=
  ⟨min (c.r * s) 1, min (c.g * s) 1, min (c.b * s) 1⟩

/-- `Color::is_zero`. -/
def is_zero (c : Color) : Prop := c.r ≤ 0 ∧ c.g ≤ 0 ∧ c.b ≤ 0

/-- `impl Add for Color`: channel-wise addition clamped with `.min(1.0)`. -/
instance : Add Color :=
  ⟨fun a c => ⟨min (a.r + c.r) 1, min (a.g + c.g) 1, min (a.b + c.b) 1⟩⟩

/-- `impl Mul for Color`: channel-wise product, not clamped. -/
instance : Mul Color := ⟨fun a c => ⟨a.r * c.r, a.g * c.g, a.b * c.b⟩⟩

end Color

/-- `material.rs`: per-channel color coefficients. -/
structure Material where
  color : Color
  specular : Color
  lambert : Color
  ambient : Color

/-- `light.rs`. -/
structure Light where
  pos : Vec3
  intensity : ℝ

/-- `primitive.rs`: the position and normal of an intersection. -/
@[ext]
structure Intersection where
  pos : Vec3
  normal : Vec3

/-- An infinite plane described by a point and a normal (`primitive.rs`). -/
structure Plane where
  point : Vec3
  normal : Vec3

/-- `Plane::new` normalizes the normal. -/
def Plane.new (point normal : Vec3) : Plane := ⟨point, normal.normalize⟩

/-- A triangle with its precomputed edge vectors and face normal
(`primitive.rs`). -/
structure Triangle where
  t1 : Vec3
  t2 : Vec3
  t3 : Vec3
  normal : Vec3
  l12 : Vec3
  l13 : Vec3

/-- `Triangle::new` precomputes `l12`, `l13` and the (unnormalized) face
normal. -/
def Triangle.new (t1 t2 t3 : Vec3) : Triangle :=
  let l12 := t2 - t1
  let l13 := t3 - t1
  ⟨t1, t2, t3, l12.cross l13, l12, l13⟩

/-- `primitive.rs`. -/
structure Sphere where
  center : Vec3
  radius : ℝ

/-- The tagged union of shapes (`enum Primitive`). -/
inductive Primitive where
  | Sphere (s : Sphere)
  | Triangle (t : Triangle)
  | Plane (p : Plane)

/-- A line that starts from `origin` and moves in the direction of `dir`
(`ray.rs`).  The `Ray::new` constructor normalizes the direction. -/
structure Ray where
  origin : Vec3
  dir : Vec3

/-- `Ray::new`: the direction is normalized. -/
def Ray.new (origin direction : Vec3) : Ray := ⟨origin, direction.normalize⟩

/-- `impl Intersectable for Plane` (`primitive.rs`). -/
def Plane.intersection (p : Plane) (ray : Ray) : Option Intersection :=
  let normal := p.normal
  let plane_point := p.point
  let ray_origin := ray.origin
  let ray_dir := ray.dir
  let dir_dot_normal := ray_dir.dot normal
  if |dir_dot_normal| < FLOAT_EPS then none
  else
    let d := (plane_point - ray_origin).dot normal / dir_dot_normal
    if d < FLOAT_EPS then none
    else some ⟨ray_origin + ray_dir * d, normal⟩

/-- `impl Intersectable for Triangle` (Möller–Trumbore, `primitive.rs`).
`(-FLOAT_EPS..FLOAT_EPS).contains(&a)` is the half-open range test
`-ε ≤ a < ε`; `(0.0..=1.0).contains(&u)` is inclusive on both ends. -/
def Triangle.intersection (tri : Triangle) (ray : Ray) : Option Intersection :=
  let ray_dir := ray.dir
  let ray_origin := ray.origin
  let h := ray_dir.cross tri.l13
  let a := tri.l12.dot h
  if -FLOAT_EPS ≤ a ∧ a < FLOAT_EPS then none
  else
    let f := 1 / a
    let s := ray_origin - tri.t1
    let u := f * s.dot h
    if ¬(0 ≤ u ∧ u ≤ 1) then none
    else
      let q := s.cross tri.l12
      let v := f * ray_dir.dot q
      if v < 0 ∨ u + v > 1 then none
      else
        let distance := f * tri.l13.dot q
        if distance < FLOAT_EPS then none
        else some ⟨ray_origin + ray_dir * distance, tri.normal⟩

/-- `impl Intersectable for Sphere` (`primitive.rs`): quadratic through the
discriminant `b² - 4ac`, with the numerically-stable two-root form; the
returned normal is `pos - center`, exactly as in the source (no
normalization). -/
def Sphere.intersection (s : Sphere) (ray : Ray) : Option Intersection :=
  let dir := ray.dir
  let r := s.radius
  let l := ray.origin - s.center
  let a := dir.dot dir
  let b := dir.dot l * 2
  let c := l.dot l - r * r
  let discr := b * b - 4 * a * c
  if discr < -FLOAT_EPS then none
  else
    let t0t1 : ℝ × ℝ :=
      if discr < FLOAT_EPS then
        let t := -0.5 * b / a
        (t, t)
      else
        let x := if b > 0 then b + Real.sqrt discr else b - Real.sqrt discr
        let q := -0.5 * x
        (q / a, c / q)
    let t0 := t0t1.1
    let t1 := t0t1.2
    if t0 < 0 then
      if t1 < 0 then none
      else
        let pos := ray.origin + dir * t1
        some ⟨pos, pos - s.center⟩
    else
      if t1 < 0 then
        let pos := ray.origin + dir * t0
        some ⟨pos, pos - s.center⟩
      else
        let pos := ray.origin + dir * (min t0 t1)
        some ⟨pos, pos - s.center⟩

/-- `impl Intersectable for Primitive`: dispatch on the variant. -/
def Primitive.intersection (p : Primitive) (ray : Ray) : Option Intersection :=
  match p with
  | .Sphere s => s.intersection ray
  | .Triangle t => t.intersection ray
  | .Plane pl => pl.intersection ray

/-- `object.rs`: a primitive paired with a material. -/
structure Object where
  primitive : Primitive
  material : Material

/-- `impl Intersectable for Object`. -/
def Object.intersection (o : Object) (ray : Ray) : Option Intersection :=
  o.primitive.intersection ray

/-- `ray.rs`: the packaged hit. -/
structure RayHit where
  color : Color
  intersection : Vec3
  normal : Vec3

/-- `Ray::trace`. -/
def Ray.trace (ray : Ray) (object : Object) : Option RayHit :=
  (object.intersection ray).map fun i =>
    ⟨object.material.color, i.pos, i.normal⟩

/-- `camera.rs`: the projection plane in front of the camera. -/
structure Viewport where
  aspect : ℝ
  pixels_x : ℕ
  pixels_y : ℕ

/-- `Viewport::new`: `aspect` is `width / height` (`aspect_ratio` in the
source). -/
def Viewport.new (width height : ℕ) : Viewport :=
  ⟨(width : ℝ) / (height : ℝ), width, height⟩

/-- `camera.rs`. -/
structure Camera where
  position : Vec3
  rotation : Rotation
  viewport : Viewport
  fov : ℝ
  distance : ℝ

/-- `enum CameraNewError`. -/
inductive CameraNewError where
  | DirectionZero
deriving DecidableEq

/-- `Camera::new`: fails with `DirectionZero` when the view direction is the
zero vector, otherwise builds the rotation basis and viewport. -/
def Camera.new (width height : ℕ) (position view_dir : Vec3) (fov : ℝ) :
    Except CameraNewError Camera :=
  let fov_rad := (fov / 2) * Real.pi / 180
  if view_dir.length_squared = 0 then .error .DirectionZero
  else .ok ⟨position, Rotation.fromVec3 view_dir, Viewport.new width height,
            fov_rad, 1 / Real.tan (fov_rad / 2)⟩

/-- `Camera::ray_from_pixel`. -/
def Camera.ray_from_pixel (cam : Camera) (pixel_x pixel_y : ℝ) : Ray :=
  let scale := Real.tan (cam.fov * 0.5)
  let x := ((2 * (pixel_x + 0.5)) / (cam.viewport.pixels_x : ℝ)) * scale
  let y := (1 - 2 * (pixel_y + 0.5) / (cam.viewport.pixels_y : ℝ)) * scale *
    (1 / cam.viewport.aspect)
  let direction := (Vec3.new x y cam.distance).rotate cam.rotation
  Ray.new cam.position direction

/-- `Camera::pixels`. -/
def Camera.pixels (cam : Camera) : ℕ × ℕ :=
  (cam.viewport.pixels_x, cam.viewport.pixels_y)

/-- `struct Raytracer` (`lib.rs`): the object/light lists are supplied per
render call in this lineage. -/
structure Raytracer where
  camera : Camera
  background_color : Color
  recurse_depth : ℤ

namespace Raytracer

/-- `Raytracer::trace_to_lights` (`lib.rs`): for each light, a probe ray
`Ray::new(pos, pos - light.pos)` is traced against each object in turn, and
the light is pushed once for every object the probe does **not** hit. -/
def trace_to_lights (world : List Object) (lights : List Light) (pos : Vec3) :
    List (Vec3 × ℝ) :=
  (lights.map fun light =>
    let ray := Ray.new pos (pos - light.pos)
    (world.filter fun object => (ray.trace object).isNone).map
      fun _ => (light.pos, light.intensity)).flatten

/-- `Raytracer::lambertian` (`lib.rs`): brightness from the first entry of
`trace_to_lights` only, clamped with `.min(1.0)`. -/
def lambertian (world : List Object) (lights : List Light)
    (material : Material) (intersection_pos intersection_normal : Vec3) :
    Color :=
  if material.lambert.is_zero then Color.zero
  else
    let brightness : ℝ :=
      match (trace_to_lights world lights intersection_pos).head? with
      | some (light_pos, light_intensity) =>
          let contribution :=
            ((intersection_pos.direction_to light_pos).normalize.dot
              intersection_normal) * light_intensity
          if contribution > 0 then contribution else 0
      | none => 0
    material.lambert.scale (min brightness 1)

/-- One step of the nearest-hit selection loop inside `Raytracer::trace`
(`lib.rs`): the accumulator keeps the candidate with the smallest
`ray_hit.intersection.length_squared()` seen so far, replaced only on a
strictly smaller distance. -/
def selectHitGo (ray : Ray) (world : List Object)
    (hit : Option (ℝ × RayHit × Object)) : Option (ℝ × RayHit × Object) :=
  match world with
  | [] => hit
  | object :: rest =>
      selectHitGo ray rest
        (match ray.trace object with
         | some ray_hit =>
             let dist := ray_hit.intersection.length_squared
             match hit with
             | some prev =>
                 if dist < prev.1 then some (dist, ray_hit, object) else hit
             | none => some (dist, ray_hit, object)
         | none => hit)

/-- The whole nearest-hit selection loop of `Raytracer::trace`, starting from
`hit = None`. -/
def selectHit (ray : Ray) (world : List Object) :
    Option (ℝ × RayHit × Object) :=
  selectHitGo ray world none

mutual

/-- `Raytracer::trace` (`lib.rs`). -/
def trace (world : List Object) (lights : List Light) (ray : Ray)
    (depth : ℤ) : Option Color :=
  if depth ≤ 0 then none
  else
    match selectHit ray world with
    | some hit =>
        some (shading world lights hit.2.2.material hit.2.1.intersection
          hit.2.1.normal (depth - 1))
    | none => none
termination_by 3 * depth.toNat
decreasing_by simp_wf <;> omega

/-- `Raytracer::shading` (`lib.rs`). -/
def shading (world : List Object) (lights : List Light) (material : Material)
    (intersection_pos intersection_normal : Vec3) (depth : ℤ) : Color :=
  let color := material.color *
    lambertian world lights material intersection_pos intersection_normal
  let color := color +
    specular world lights material intersection_pos intersection_normal depth
  color + material.color * material.ambient
termination_by 3 * depth.toNat + 2
decreasing_by simp_wf

/-- `Raytracer::specular` (`lib.rs`): reflects the intersection **position**
about the normal and recurses with `depth - 1`. -/
def specular (world : List Object) (lights : List Light) (material : Material)
    (intersection_pos intersection_normal : Vec3) (depth : ℤ) : Color :=
  if material.specular.is_zero then Color.zero
  else
    let reflected_dir := intersection_pos.reflect intersection_normal
    let new_ray := Ray.new intersection_pos reflected_dir
    match trace world lights new_ray (depth - 1) with
    | some c => c * material.specular
    | none => Color.zero
termination_by 3 * depth.toNat + 1
decreasing_by simp_wf <;> omega

end

/-- `[a, a+1, ..., b-1]`: a Rust `Range<i64>` iterated in order. -/
def intRange (a b : ℤ) : List ℤ :=
  (List.range (b - a).toNat).map fun i => a + i

/-- `image[row][col] = c` on a row-major grid. -/
def setCell (image : List (List Color)) (row col : ℕ) (c : Color) :
    List (List Color) :=
  image.set row ((image.getD row []).set col c)

/-- `Raytracer::raycast` (`lib.rs`): sequential render.  Rows enumerate
`-py..0`, columns enumerate `-px/2..px/2` (truncating `i64` division), the
cell is overwritten only when `trace` returns a hit. -/
def raycast (rt : Raytracer) (world : List Object) (lights : List Light) :
    List (List Color) :=
  let px := rt.camera.viewport.pixels_x
  let py := rt.camera.viewport.pixels_y
  let image := List.replicate py (List.replicate px rt.background_color)
  let pxI : ℤ := px
  let pyI : ℤ := py
  (intRange (-pyI) 0).enum.foldl (fun image rowy =>
    (intRange ((-pxI).tdiv 2) (pxI.tdiv 2)).enum.foldl (fun image colx =>
      let ray := rt.camera.ray_from_pixel (colx.2 : ℝ) (-(rowy.2 : ℝ))
      match trace world lights ray rt.recurse_depth with
      | some hit => setCell image rowy.1 colx.1 hit
      | none => image) image) image

/-- The messages sent over the channel by `Raytracer::par_raycast` (`lib.rs`),
in task-submission order: each pixel task sends `(row, col, color)` **only**
when its `trace` returns a hit; misses send nothing. -/
def par_sent (rt : Raytracer) (world : List Object) (lights : List Light) :
    List (ℕ × ℕ × Color) :=
  let px := rt.camera.viewport.pixels_x
  let pxI : ℤ := px
  let pyI : ℤ := rt.camera.viewport.pixels_y
  (intRange (-pyI) 0).enum.foldl (fun acc rowy =>
    (intRange ((-pxI).tdiv 2) (pxI.tdiv 2)).enum.foldl (fun acc colx =>
      let ray := rt.camera.ray_from_pixel (colx.2 : ℝ) (-(rowy.2 : ℝ))
      match trace world lights ray rt.recurse_depth with
      | some hit => acc ++ [(rowy.1, colx.1, hit)]
      | none => acc) acc) []

/-- `Raytracer::par_raycast` (`lib.rs`), modelled over the order `delivery` in
which the channel hands messages to the receiver (any permutation of
`par_sent`; the threads race).  The receive loop
`rx.iter().take((px * py) as usize)` consumes exactly `px * py` messages and
the function's own `tx` handle is never dropped, so when fewer messages than
that are ever sent the iterator blocks forever on `recv`: that non-returning
execution is modelled as `none`. -/
def par_raycast (rt : Raytracer) (world : List Object) (lights : List Light)
    (delivery : List (ℕ × ℕ × Color)) : Option (List (List Color)) :=
  let px := rt.camera.viewport.pixels_x
  let py := rt.camera.viewport.pixels_y
  let image := List.replicate py (List.replicate px rt.background_color)
  if px * py ≤ delivery.length then
    some ((delivery.take (px * py)).foldl
      (fun image m => setCell image m.1 m.2.1 m.2.2) image)
  else none

end Raytracer

/-! ### Concrete example scenes used by counterexamples and witnesses -/

/-- Example material: white base color, zero lambert and specular
coefficients, ambient tint `amb`. -/
def exMatAmbient (amb : Color) : Material :=
  ⟨⟨1, 1, 1⟩, ⟨0, 0, 0⟩, ⟨0, 0, 0⟩, amb⟩

/-- Example object: the plane `z = zc` (unit normal `(0,0,1)`) with an
ambient-only material. -/
def exPlaneZ (zc : ℝ) (amb : Color) : Object :=
  ⟨.Plane (Plane.new (Vec3.new 0 0 zc) (Vec3.new 0 0 1)), exMatAmbient amb⟩

/-- All three channels lie in the valid range `[0, 1]`. -/
def Color.InRange (c : Color) : Prop :=
  0 ≤ c.r ∧ c.r ≤ 1 ∧ 0 ≤ c.g ∧ c.g ≤ 1 ∧ 0 ≤ c.b ∧ c.b ≤ 1

/-- Base color and all three coefficient colors lie in `[0, 1]`. -/
def Material.InRange (m : Material) : Prop :=
  m.color.InRange ∧ m.specular.InRange ∧ m.lambert.InRange ∧
    m.ambient.InRange

/-! ### Basic evaluation lemmas for the vector and color operations -/

@[simp]
theorem Vec3.sub_def (a b : Vec3) :
    a - b = ⟨a.x - b.x, a.y - b.y, a.z - b.z⟩ := rfl

@[simp]
theorem Vec3.add_def (a b : Vec3) :
    a + b = ⟨a.x + b.x, a.y + b.y, a.z + b.z⟩ := rfl

@[simp]
theorem Vec3.neg_def (a : Vec3) : -a = ⟨-a.x, -a.y, -a.z⟩ := rfl

@[simp]
theorem Vec3.mul_scalar_def (a : Vec3) (s : ℝ) :
    a * s = ⟨a.x * s, a.y * s, a.z * s⟩ := rfl

@[simp]
theorem Vec3.scalar_mul_def (s : ℝ) (a : Vec3) :
    s * a = ⟨a.x * s, a.y * s, a.z * s⟩ := rfl

@[simp]
theorem Color.add_channels (a c : Color) :
    a + c = ⟨min (a.r + c.r) 1, min (a.g + c.g) 1, min (a.b + c.b) 1⟩ := rfl

@[simp]
theorem Color.mul_channels (a c : Color) :
    a * c = ⟨a.r * c.r, a.g * c.g, a.b * c.b⟩ := rfl

theorem Vec3.length_squared_nonneg (v : Vec3) : 0 ≤ v.length_squared := by
  simp only [length_squared]
  nlinarith [mul_self_nonneg v.x, mul_self_nonneg v.y, mul_self_nonneg v.z]

/-- Evaluate `length` when the squared length is a known perfect square. -/
theorem Vec3.length_eq (v : Vec3) {m : ℝ} (hm : 0 ≤ m)
    (h : v.length_squared = m ^ 2) : v.length = m := by
  rw [length, h, Real.sqrt_sq hm]

theorem Vec3.dot_self_eq_length_squared (v : Vec3) :
    v.dot v = v.length_squared := rfl

theorem Vec3.length_squared_eq_one_of_length_eq_one {v : Vec3}
    (h : v.length = 1) : v.length_squared = 1 := by
  have h2 : Real.sqrt v.length_squared = 1 := h
  have := congrArg (fun t => t ^ 2) h2
  simpa [Real.sq_sqrt v.length_squared_nonneg] using this

theorem FLOAT_EPS_pos : (0 : ℝ) < FLOAT_EPS := by norm_num [FLOAT_EPS]

/-! ### C9: reflection about a unit normal is involutive -/

theorem Vec3.reflect_reflect_eq {n : Vec3} (v : Vec3) (hn : n.dot n = 1) :
    (v.reflect n).reflect n = v := by
  have hn' : n.x * n.x + n.y * n.y + n.z * n.z = 1 := hn
  ext
  · simp only [reflect, dot, scalar_mul_def, mul_scalar_def, sub_def]
    linear_combination (4 * n.x * (n.x * v.x + n.y * v.y + n.z * v.z)) * hn'
  · simp only [reflect, dot, scalar_mul_def, mul_scalar_def, sub_def]
    linear_combination (4 * n.y * (n.x * v.x + n.y * v.y + n.z * v.z)) * hn'
  · simp only [reflect, dot, scalar_mul_def, mul_scalar_def, sub_def]
    linear_combination (4 * n.z * (n.x * v.x + n.y * v.y + n.z * v.z)) * hn'

/-- C9: for all unit vectors `v` and unit vectors `n`, reflecting `v` about
`n` twice returns `v` within epsilon (the Rust `==` on `Vec3` is the
epsilon-based comparison): `reflect(reflect(v, n), n) == v`. -/
theorem claim_C9_reflect_involutive (v n : Vec3) (hv : v.length = 1)
    (hn : n.length = 1) : Vec3.approxEq ((v.reflect n).reflect n) v := by
  have hdot : n.dot n = 1 := by
    rw [Vec3.dot_self_eq_length_squared,
      Vec3.length_squared_eq_one_of_length_eq_one hn]
  rw [Vec3.reflect_reflect_eq v hdot]
  refine ⟨?_, ?_, ?_⟩ <;> simpa using FLOAT_EPS_pos

/-- Witness for C9 at `v = (1,0,0)`, `n = (0,0,1)`. -/
theorem claim_C9_witness :
    (Vec3.new 1 0 0).length = 1 ∧ (Vec3.new 0 0 1).length = 1 ∧
    Vec3.approxEq
      (((Vec3.new 1 0 0).reflect (Vec3.new 0 0 1)).reflect (Vec3.new 0 0 1))
      (Vec3.new 1 0 0) := by
  have h1 : (Vec3.new 1 0 0).length = 1 :=
    Vec3.length_eq _ (by norm_num)
      (by simp [Vec3.new, Vec3.length_squared])
  have h2 : (Vec3.new 0 0 1).length = 1 :=
    Vec3.length_eq _ (by norm_num)
      (by simp [Vec3.new, Vec3.length_squared])
  exact ⟨h1, h2, claim_C9_reflect_involutive _ _ h1 h2⟩

/-! ### C10: `is_unit` accepts every short vector -/

/-- C10: `Vec3::is_unit` compares `length - 1.0 < FLOAT_EPS` without an
absolute value, so it holds for every vector of length below `1 + FLOAT_EPS`,
including the zero vector and vectors much shorter than unit length. -/
theorem claim_C10_is_unit_accepts_short :
    (∀ v : Vec3, v.is_unit ↔ v.length < 1 + FLOAT_EPS) ∧
    Vec3.zero.is_unit ∧ (Vec3.new (1 / 1000) 0 0).is_unit := by
  refine ⟨fun v => by rw [Vec3.is_unit, sub_lt_iff_lt_add'], ?_, ?_⟩
  · have hz : Vec3.zero.length = 0 := by
      simp [Vec3.zero, Vec3.length, Vec3.length_squared]
    rw [Vec3.is_unit, hz]; norm_num [FLOAT_EPS]
  · have hs : (Vec3.new (1 / 1000) 0 0).length = 1 / 1000 :=
      Vec3.length_eq _ (by norm_num)
        (by simp [Vec3.new, Vec3.length_squared]; norm_num)
    rw [Vec3.is_unit, hs]; norm_num [FLOAT_EPS]

/-! ### C8: camera construction fails exactly on the zero view direction -/

theorem Vec3.length_squared_eq_zero_iff (v : Vec3) :
    v.length_squared = 0 ↔ v = Vec3.zero := by
  constructor
  · intro h0
    have hx := mul_self_nonneg v.x
    have hy := mul_self_nonneg v.y
    have hz := mul_self_nonneg v.z
    simp only [length_squared] at h0
    ext
    · show v.x = (0 : ℝ); nlinarith
    · show v.y = (0 : ℝ); nlinarith
    · show v.z = (0 : ℝ); nlinarith
  · rintro rfl; simp [Vec3.zero, length_squared]

/-- C8: for every width, height, position, view direction and field of view,
`Camera::new` returns the typed error `DirectionZero` exactly when the view
direction is the zero vector, and returns a camera (no panic is possible in
this total model) exactly when it is non-zero. -/
theorem claim_C8_camera_new_direction_zero (w h : ℕ) (pos dir : Vec3)
    (fov : ℝ) :
    (Camera.new w h pos dir fov = .error .DirectionZero ↔ dir = Vec3.zero) ∧
    ((∃ cam, Camera.new w h pos dir fov = .ok cam) ↔ dir ≠ Vec3.zero) := by
  unfold Camera.new
  split_ifs with hz
  · rw [Vec3.length_squared_eq_zero_iff] at hz
    subst hz
    simp
  · rw [Vec3.length_squared_eq_zero_iff] at hz
    refine ⟨⟨fun hc => by simp at hc, fun hc => absurd hc hz⟩, ?_⟩
    simp [hz]

/-- Witness for C8: the zero view direction gives the typed error. -/
theorem claim_C8_witness :
    Camera.new 2 2 (Vec3.new 0 0 0) (Vec3.new 0 0 0) 90 =
      .error .DirectionZero :=
  (claim_C8_camera_new_direction_zero 2 2 (Vec3.new 0 0 0) (Vec3.new 0 0 0)
    90).1.mpr rfl

/-! ### C5: sphere intersection discriminant handling and root selection -/

/-- C5: for every sphere and every ray with unit direction, the sphere
intersection rejects when the discriminant is below `-ε`; treats a
discriminant in `[-ε, ε)` as a single tangent root `-b/2`, hitting at it
exactly when it is non-negative; and otherwise computes the two real roots
`r1 ≤ r2` of the quadratic (through the numerically-stable form), reports no
intersection exactly when both are negative, and hits at the smaller
non-negative root. -/
theorem claim_C5_sphere_root_selection (s : Sphere) (ray : Ray)
    (hdir : ray.dir.dot ray.dir = 1) (b c discr r1 r2 : ℝ)
    (hb : b = ray.dir.dot (ray.origin - s.center) * 2)
    (hc : c = (ray.origin - s.center).dot (ray.origin - s.center) -
      s.radius * s.radius)
    (hdiscr : discr = b * b - 4 * c)
    (hr1 : r1 = (-b - Real.sqrt discr) / 2)
    (hr2 : r2 = (-b + Real.sqrt discr) / 2) :
    (discr < -FLOAT_EPS → s.intersection ray = none) ∧
    (-FLOAT_EPS ≤ discr → discr < FLOAT_EPS →
      ((-b / 2 < 0 → s.intersection ray = none) ∧
       (0 ≤ -b / 2 → s.intersection ray =
         some ⟨ray.origin + ray.dir * (-b / 2),
               (ray.origin + ray.dir * (-b / 2)) - s.center⟩))) ∧
    (FLOAT_EPS ≤ discr →
      ((r1 < 0 ∧ r2 < 0 → s.intersection ray = none) ∧
       (0 ≤ r1 → s.intersection ray =
         some ⟨ray.origin + ray.dir * r1,
               (ray.origin + ray.dir * r1) - s.center⟩) ∧
       (r1 < 0 → 0 ≤ r2 → s.intersection ray =
         some ⟨ray.origin + ray.dir * r2,
               (ray.origin + ray.dir * r2) - s.center⟩))) := by
  simp only [Sphere.intersection]
  rw [hdir]
  simp only [mul_one, div_one]
  rw [← hb, ← hc]
  rw [← hdiscr]
  rw [show ((-0.5 : ℝ)) * b = -b / 2 from by ring]
  refine ⟨fun h1 => ?_, fun h1 h2 => ?_, fun h3 => ?_⟩
  · rw [if_pos h1]
  · rw [if_neg (not_lt.mpr h1)]
    simp only [if_pos h2]
    refine ⟨fun hneg => ?_, fun hpos => ?_⟩
    · rw [if_pos hneg, if_pos hneg]
    · rw [if_neg (not_lt.mpr hpos), if_neg (not_lt.mpr hpos), min_self]
  · have hd0 : (0 : ℝ) < discr := lt_of_lt_of_le FLOAT_EPS_pos h3
    have hsqpos : 0 < Real.sqrt discr := Real.sqrt_pos.mpr hd0
    have hsq : Real.sqrt discr ^ 2 = discr := Real.sq_sqrt hd0.le
    have hr1r2 : r1 * r2 = c := by
      rw [hr1, hr2]
      linear_combination (-(1 : ℝ) / 4) * hsq + (-(1 : ℝ) / 4) * hdiscr
    have hr1le : r1 ≤ r2 := by rw [hr1, hr2]; linarith
    rw [if_neg (not_lt.mpr (le_trans (neg_nonpos_of_nonneg
      FLOAT_EPS_pos.le) (le_trans FLOAT_EPS_pos.le h3)))]
    simp only [if_neg (not_lt.mpr h3)]
    by_cases hbpos : b > 0
    · have hr1neg : r1 < 0 := by rw [hr1]; nlinarith
      simp only [if_pos hbpos]
      rw [show ((-0.5 : ℝ)) * (b + Real.sqrt discr) = r1 from by rw [hr1]; ring]
      have hq : c / r1 = r2 := by
        rw [← hr1r2, mul_comm, mul_div_assoc, div_self hr1neg.ne, mul_one]
      rw [hq]
      rw [if_pos hr1neg]
      refine ⟨fun hb2 => by rw [if_pos hb2.2], ?_, ?_⟩
      · intro h0; exact absurd h0 (not_le.mpr hr1neg)
      · intro _ h0; rw [if_neg (not_lt.mpr h0)]
    · have hr2pos : 0 < r2 := by
        rw [hr2]; push_neg at hbpos; nlinarith
      simp only [if_neg hbpos]
      rw [show ((-0.5 : ℝ)) * (b - Real.sqrt discr) = r2 from by rw [hr2]; ring]
      have hq : c / r2 = r1 := by
        rw [← hr1r2, mul_div_assoc, div_self hr2pos.ne', mul_one]
      rw [hq]
      rw [if_neg (not_lt.mpr hr2pos.le)]
      refine ⟨fun hb2 => absurd hr2pos (not_lt.mpr hb2.2.le), ?_, ?_⟩
      · intro h0
        rw [if_neg (not_lt.mpr h0), min_comm, min_eq_left hr1le]
      · intro h0 _
        rw [if_pos h0]

/-- Witness for C5: unit sphere at the origin, ray from `(-3,0,0)` along
`(1,0,0)`; roots `2` and `4`, hit at the smaller non-negative root `2`. -/
theorem claim_C5_witness :
    (Ray.new (Vec3.new (-3) 0 0) (Vec3.new 1 0 0)).dir.dot
      (Ray.new (Vec3.new (-3) 0 0) (Vec3.new 1 0 0)).dir = 1 ∧
    Sphere.intersection ⟨Vec3.new 0 0 0, 1⟩
      (Ray.new (Vec3.new (-3) 0 0) (Vec3.new 1 0 0)) =
      some ⟨Vec3.new (-1) 0 0, Vec3.new (-1) 0 0⟩ := by
  have hray : Ray.new (Vec3.new (-3) 0 0) (Vec3.new 1 0 0) =
      ⟨Vec3.new (-3) 0 0, Vec3.new 1 0 0⟩ := by
    simp [Ray.new, Vec3.new, Vec3.normalize, Vec3.length, Vec3.length_squared]
  have hdot : (Ray.new (Vec3.new (-3) 0 0) (Vec3.new 1 0 0)).dir.dot
      (Ray.new (Vec3.new (-3) 0 0) (Vec3.new 1 0 0)).dir = 1 := by
    rw [hray]; simp [Vec3.dot, Vec3.new]
  have h4 : Real.sqrt 4 = 2 := by
    rw [show (4 : ℝ) = 2 ^ 2 by norm_num, Real.sqrt_sq (by norm_num : (0:ℝ) ≤ 2)]
  have h := claim_C5_sphere_root_selection ⟨Vec3.new 0 0 0, 1⟩
    (Ray.new (Vec3.new (-3) 0 0) (Vec3.new 1 0 0)) hdot (-6) 8 4 2 4
    (by rw [hray]; simp [Vec3.dot, Vec3.new]; norm_num)
    (by rw [hray]; simp [Vec3.dot, Vec3.new]; norm_num)
    (by norm_num) (by norm_num [h4]) (by norm_num [h4])
  refine ⟨hdot, ?_⟩
  have hres := (h.2.2 (by norm_num [FLOAT_EPS])).2.1 (by norm_num)
  rw [hres, hray]
  simp [Vec3.new]
  norm_num

/-! ### C6: the sphere intersection's normal is not normalized -/

/-- C6 (divergence witness): for the sphere of radius `2` at the origin and
the ray from `(-5,0,0)` along `(1,0,0)`, the code returns the normal
`hit_point - center = (-2,0,0)`, whose length is `2` — not the normalized
unit vector `(-1,0,0)` that the claim (and the sibling lineage's
`src/rotation.rs`-era `primitive.rs`) prescribes. -/
theorem claim_C6_sphere_normal_not_normalized :
    Sphere.intersection ⟨Vec3.new 0 0 0, 2⟩
      (Ray.new (Vec3.new (-5) 0 0) (Vec3.new 1 0 0)) =
      some ⟨Vec3.new (-2) 0 0, Vec3.new (-2) 0 0⟩ ∧
    (Vec3.new (-2) 0 0).length = 2 ∧
    (Vec3.new (-2) 0 0 - Vec3.new 0 0 0).normalize = Vec3.new (-1) 0 0 ∧
    Vec3.new (-2) 0 0 ≠ Vec3.new (-1) 0 0 := by
  have hray : Ray.new (Vec3.new (-5) 0 0) (Vec3.new 1 0 0) =
      ⟨Vec3.new (-5) 0 0, Vec3.new 1 0 0⟩ := by
    simp [Ray.new, Vec3.new, Vec3.normalize, Vec3.length, Vec3.length_squared]
  have h16 : Real.sqrt 16 = 4 := by
    rw [show (16 : ℝ) = 4 ^ 2 by norm_num,
      Real.sqrt_sq (by norm_num : (0:ℝ) ≤ 4)]
  have hlen : (Vec3.new (-2) 0 0).length = 2 :=
    Vec3.length_eq _ (by norm_num)
      (by simp [Vec3.new, Vec3.length_squared]; norm_num)
  refine ⟨?_, hlen, ?_, ?_⟩
  · rw [hray]
    norm_num [Sphere.intersection, Vec3.dot, Vec3.new, FLOAT_EPS, h16, min_def]
  · have hsub : Vec3.new (-2) 0 0 - Vec3.new 0 0 0 = Vec3.new (-2) 0 0 := by
      simp [Vec3.new]
    rw [hsub]
    have hlen2 := hlen
    simp only [Vec3.new] at hlen2
    simp [Vec3.normalize, Vec3.new, hlen2]
  · intro hcontr
    have hx := congrArg Vec3.x hcontr
    norm_num [Vec3.new] at hx

/-! ### Unfolding equations for the recursive trace engine -/

theorem Raytracer.trace_eq (world : List Object) (lights : List Light)
    (ray : Ray) (depth : ℤ) :
    Raytracer.trace world lights ray depth =
      if depth ≤ 0 then none
      else
        match Raytracer.selectHit ray world with
        | some hit =>
            some (Raytracer.shading world lights hit.2.2.material
              hit.2.1.intersection hit.2.1.normal (depth - 1))
        | none => none := by
  rw [Raytracer.trace]

theorem Raytracer.shading_eq (world : List Object) (lights : List Light)
    (material : Material) (intersection_pos intersection_normal : Vec3)
    (depth : ℤ) :
    Raytracer.shading world lights material intersection_pos
        intersection_normal depth =
      (material.color * Raytracer.lambertian world lights material
          intersection_pos intersection_normal +
        Raytracer.specular world lights material intersection_pos
          intersection_normal depth) +
      material.color * material.ambient := by
  rw [Raytracer.shading]

theorem Raytracer.specular_eq (world : List Object) (lights : List Light)
    (material : Material) (intersection_pos intersection_normal : Vec3)
    (depth : ℤ) :
    Raytracer.specular world lights material intersection_pos
        intersection_normal depth =
      if material.specular.is_zero then Color.zero
      else
        match Raytracer.trace world lights
          (Ray.new intersection_pos
            (intersection_pos.reflect intersection_normal)) (depth - 1) with
        | some c => c * material.specular
        | none => Color.zero := by
  rw [Raytracer.specular]

theorem Raytracer.trace_nonpos (world : List Object) (lights : List Light)
    (ray : Ray) {depth : ℤ} (hd : depth ≤ 0) :
    Raytracer.trace world lights ray depth = none := by
  rw [Raytracer.trace_eq, if_pos hd]

theorem Raytracer.trace_nil (lights : List Light) (ray : Ray) (depth : ℤ) :
    Raytracer.trace [] lights ray depth = none := by
  rw [Raytracer.trace_eq]
  split_ifs
  · rfl
  · rfl

/-! ### Characterization of the nearest-hit selection loop -/

theorem Raytracer.selectHitGo_none_iff (ray : Ray) (world : List Object) :
    ∀ acc : Option (ℝ × RayHit × Object),
    Raytracer.selectHitGo ray world acc = none ↔
      (acc = none ∧ ∀ o ∈ world, ray.trace o = none) := by
  induction world with
  | nil => intro acc; simp [Raytracer.selectHitGo]
  | cons o1 rest ih =>
      intro acc
      simp only [Raytracer.selectHitGo]
      cases htr : ray.trace o1 with
      | none =>
          rw [ih]
          constructor
          · rintro ⟨h1, h2⟩
            refine ⟨h1, fun o ho => ?_⟩
            rcases List.mem_cons.mp ho with rfl | ho2
            · exact htr
            · exact h2 o ho2
          · rintro ⟨h1, h2⟩
            exact ⟨h1, fun o ho => h2 o (List.mem_cons_of_mem _ ho)⟩
      | some rh1 =>
          rw [ih]
          constructor
          · rintro ⟨h1, -⟩
            exfalso
            cases acc with
            | none => simp at h1
            | some prev =>
                dsimp only at h1
                split_ifs at h1 <;> simp at h1
          · rintro ⟨-, h2⟩
            have hno := h2 o1 (by simp)
            rw [htr] at hno
            cases hno

theorem Raytracer.selectHitGo_some_spec (ray : Ray) (world : List Object) :
    ∀ (acc : Option (ℝ × RayHit × Object)) (d : ℝ) (rh : RayHit) (o : Object),
    Raytracer.selectHitGo ray world acc = some (d, rh, o) →
    ((acc = some (d, rh, o) ∨
      (o ∈ world ∧ ray.trace o = some rh ∧
        d = rh.intersection.length_squared)) ∧
     (∀ pd prh po, acc = some (pd, prh, po) → d ≤ pd) ∧
     (∀ o2 ∈ world, ∀ rh2, ray.trace o2 = some rh2 →
        d ≤ rh2.intersection.length_squared)) := by
  induction world with
  | nil =>
      intro acc d rh o h
      simp only [Raytracer.selectHitGo] at h
      refine ⟨Or.inl h, fun pd prh po hacc => ?_, by simp⟩
      rw [h] at hacc
      have h2 := Option.some.inj hacc
      rw [Prod.ext_iff] at h2
      exact le_of_eq h2.1
  | cons o1 rest ih =>
      intro acc d rh o h
      simp only [Raytracer.selectHitGo] at h
      cases htr : ray.trace o1 with
      | none =>
          rw [htr] at h
          obtain ⟨H1, H2, H3⟩ := ih _ _ _ _ h
          refine ⟨?_, H2, ?_⟩
          · rcases H1 with h1 | ⟨hm, ht, hd2⟩
            · exact Or.inl h1
            · exact Or.inr ⟨List.mem_cons_of_mem _ hm, ht, hd2⟩
          · intro o2 ho2 rh2 ht2
            rcases List.mem_cons.mp ho2 with rfl | hm
            · rw [htr] at ht2; cases ht2
            · exact H3 o2 hm rh2 ht2
      | some rh1 =>
          rw [htr] at h
          cases acc with
          | none =>
              dsimp only at h
              obtain ⟨H1, H2, H3⟩ := ih _ _ _ _ h
              have hstep : ∀ rh2, ray.trace o1 = some rh2 →
                  d ≤ rh2.intersection.length_squared := by
                intro rh2 ht2
                rw [htr] at ht2
                have hr12 : rh1 = rh2 := Option.some.inj ht2
                subst hr12
                exact H2 _ _ _ rfl
              refine ⟨?_, ?_, ?_⟩
              · rcases H1 with h1 | ⟨hm, ht, hd2⟩
                · have h2 := Option.some.inj h1
                  rw [Prod.ext_iff] at h2
                  obtain ⟨h21, h22⟩ := h2
                  rw [Prod.ext_iff] at h22
                  obtain ⟨h22, h23⟩ := h22
                  subst h21
                  subst h22
                  subst h23
                  exact Or.inr ⟨by simp, htr, rfl⟩
                · exact Or.inr ⟨List.mem_cons_of_mem _ hm, ht, hd2⟩
              · intro pd prh po hacc
                exact Option.noConfusion hacc
              · intro o2 ho2 rh2 ht2
                rcases List.mem_cons.mp ho2 with rfl | hm
                · exact hstep rh2 ht2
                · exact H3 o2 hm rh2 ht2
          | some prev =>
              obtain ⟨pd1, prh1, po1⟩ := prev
              dsimp only at h
              by_cases hlt : rh1.intersection.length_squared < pd1
              · rw [if_pos hlt] at h
                obtain ⟨H1, H2, H3⟩ := ih _ _ _ _ h
                have hdle : d ≤ rh1.intersection.length_squared :=
                  H2 _ _ _ rfl
                refine ⟨?_, ?_, ?_⟩
                · rcases H1 with h1 | ⟨hm, ht, hd2⟩
                  · have h2 := Option.some.inj h1
                    rw [Prod.ext_iff] at h2
                    obtain ⟨h21, h22⟩ := h2
                    rw [Prod.ext_iff] at h22
                    obtain ⟨h22, h23⟩ := h22
                    subst h21
                    subst h22
                    subst h23
                    exact Or.inr ⟨by simp, htr, rfl⟩
                  · exact Or.inr ⟨List.mem_cons_of_mem _ hm, ht, hd2⟩
                · intro pd prh po hacc
                  have h2 := Option.some.inj hacc
                  rw [Prod.ext_iff] at h2
                  obtain ⟨h21, -⟩ := h2
                  subst h21
                  exact le_trans hdle (le_of_lt hlt)
                · intro o2 ho2 rh2 ht2
                  rcases List.mem_cons.mp ho2 with rfl | hm
                  · rw [htr] at ht2
                    have hr12 : rh1 = rh2 := Option.some.inj ht2
                    subst hr12
                    exact hdle
                  · exact H3 o2 hm rh2 ht2
              · rw [if_neg hlt] at h
                obtain ⟨H1, H2, H3⟩ := ih _ _ _ _ h
                have hdle : d ≤ pd1 := H2 _ _ _ rfl
                refine ⟨?_, ?_, ?_⟩
                · rcases H1 with h1 | ⟨hm, ht, hd2⟩
                  · exact Or.inl h1
                  · exact Or.inr ⟨List.mem_cons_of_mem _ hm, ht, hd2⟩
                · intro pd prh po hacc
                  have h2 := Option.some.inj hacc
                  rw [Prod.ext_iff] at h2
                  obtain ⟨h21, -⟩ := h2
                  subst h21
                  exact hdle
                · intro o2 ho2 rh2 ht2
                  rcases List.mem_cons.mp ho2 with rfl | hm
                  · rw [htr] at ht2
                    have hr12 : rh1 = rh2 := Option.some.inj ht2
                    subst hr12
                    exact le_trans hdle (not_lt.mp hlt)
                  · exact H3 o2 hm rh2 ht2

theorem Raytracer.selectHit_none_iff (ray : Ray) (world : List Object) :
    Raytracer.selectHit ray world = none ↔
      ∀ o ∈ world, ray.trace o = none := by
  rw [Raytracer.selectHit, Raytracer.selectHitGo_none_iff]
  simp

theorem Raytracer.selectHit_some_spec (ray : Ray) (world : List Object)
    (d : ℝ) (rh : RayHit) (o : Object)
    (h : Raytracer.selectHit ray world = some (d, rh, o)) :
    o ∈ world ∧ ray.trace o = some rh ∧
    d = rh.intersection.length_squared ∧
    (∀ o2 ∈ world, ∀ rh2, ray.trace o2 = some rh2 →
      d ≤ rh2.intersection.length_squared) := by
  obtain ⟨H1, -, H3⟩ := Raytracer.selectHitGo_some_spec ray world none d rh o h
  rcases H1 with h1 | ⟨hm, ht, hd2⟩
  · cases h1
  · exact ⟨hm, ht, hd2, H3⟩

/-! ### C1: which hit does `trace` shade? -/

/-- C1 (amended): for every scene, every ray, and every depth `≥ 1`, `trace`
scans all objects: it returns no contribution iff no object intersects the
ray, and otherwise it shades (with remaining depth `depth - 1`) an object
whose intersection point has the minimal value of
`ray_hit.intersection.length_squared()` — the squared distance of the hit
point from the **world origin**, not from the ray's origin. -/
theorem claim_C1_trace_nearest_to_world_origin (world : List Object)
    (lights : List Light) (ray : Ray) (depth : ℤ) (hdep : 1 ≤ depth) :
    (Raytracer.trace world lights ray depth = none ↔
      ∀ o ∈ world, ray.trace o = none) ∧
    (∀ col, Raytracer.trace world lights ray depth = some col →
      ∃ o rh, o ∈ world ∧ ray.trace o = some rh ∧
        (∀ o2 ∈ world, ∀ rh2, ray.trace o2 = some rh2 →
          rh.intersection.length_squared ≤
            rh2.intersection.length_squared) ∧
        col = Raytracer.shading world lights o.material rh.intersection
          rh.normal (depth - 1)) := by
  have hneg : ¬(depth ≤ 0) := by omega
  rw [Raytracer.trace_eq, if_neg hneg]
  cases hsel : Raytracer.selectHit ray world with
  | none =>
      rw [Raytracer.selectHit_none_iff] at hsel
      constructor
      · simpa using hsel
      · intro col hcol
        cases hcol
  | some hitv =>
      obtain ⟨d0, rh0, o0⟩ := hitv
      obtain ⟨hm, ht, hdist, hmin⟩ :=
        Raytracer.selectHit_some_spec ray world d0 rh0 o0 hsel
      constructor
      · constructor
        · intro hcontr; cases hcontr
        · intro hall
          have := hall o0 hm
          rw [ht] at this
          cases this
      · intro col hcol
        have hcol2 : col = Raytracer.shading world lights o0.material
            rh0.intersection rh0.normal (depth - 1) :=
          (Option.some.inj hcol).symm
        subst hdist
        exact ⟨o0, rh0, hm, ht, hmin, hcol2⟩

/-- Witness for C1 (amended): the empty scene at depth 1 traces to `none`. -/
theorem claim_C1_witness :
    Raytracer.trace [] [] (Ray.new (Vec3.new 0 0 0) (Vec3.new 0 0 1)) 1 =
      none :=
  (claim_C1_trace_nearest_to_world_origin [] []
    (Ray.new (Vec3.new 0 0 0) (Vec3.new 0 0 1)) 1 (by norm_num)).1.mpr
    (by simp)

theorem Vec3.normalize_e3 : (Vec3.new 0 0 1).normalize = Vec3.new 0 0 1 := by
  simp [Vec3.new, Vec3.normalize, Vec3.length, Vec3.length_squared]

/-- Evaluation of a ray against the example plane `z = zc`. -/
theorem Ray.trace_exPlaneZ (zc : ℝ) (amb : Color) (ray : Ray) :
    ray.trace (exPlaneZ zc amb) =
      if |ray.dir.z| < FLOAT_EPS then none
      else if (zc - ray.origin.z) / ray.dir.z < FLOAT_EPS then none
      else
        some ⟨Color.new_f 1 1 1,
          ray.origin + ray.dir * ((zc - ray.origin.z) / ray.dir.z),
          Vec3.new 0 0 1⟩ := by
  have hd : ray.dir.dot (Vec3.new 0 0 1) = ray.dir.z := by
    simp [Vec3.dot, Vec3.new]
  have hp : (Vec3.new 0 0 zc - ray.origin).dot (Vec3.new 0 0 1) =
      zc - ray.origin.z := by
    simp [Vec3.dot, Vec3.new]
  simp only [Ray.trace, Object.intersection, exPlaneZ, Primitive.intersection,
    Plane.new, Vec3.normalize_e3, Plane.intersection, exMatAmbient, hd, hp]
  split_ifs <;> simp [Color.new_f]

/-- C1 counterexample: two ambient-only planes `z = -15` (red) and `z = -1`
(green), ray from `(0,0,-20)` along `(0,0,1)`.  The red plane's hit is
strictly nearer the ray origin (25 < 361), so the claim requires the red
shading `(1,0,0)`; the code compares distances from the world origin
(225 vs 1) and returns the green shading `(0,1,0)`. -/
theorem claim_C1_counterexample :
    Ray.trace ⟨Vec3.new 0 0 (-20), Vec3.new 0 0 1⟩
        (exPlaneZ (-15) (Color.new_f 1 0 0)) =
      some ⟨Color.new_f 1 1 1, Vec3.new 0 0 (-15), Vec3.new 0 0 1⟩ ∧
    Ray.trace ⟨Vec3.new 0 0 (-20), Vec3.new 0 0 1⟩
        (exPlaneZ (-1) (Color.new_f 0 1 0)) =
      some ⟨Color.new_f 1 1 1, Vec3.new 0 0 (-1), Vec3.new 0 0 1⟩ ∧
    (Vec3.new 0 0 (-15) - Vec3.new 0 0 (-20)).length_squared <
      (Vec3.new 0 0 (-1) - Vec3.new 0 0 (-20)).length_squared ∧
    Ray.new (Vec3.new 0 0 (-20)) (Vec3.new 0 0 1) =
      ⟨Vec3.new 0 0 (-20), Vec3.new 0 0 1⟩ ∧
    Raytracer.shading
        [exPlaneZ (-15) (Color.new_f 1 0 0), exPlaneZ (-1) (Color.new_f 0 1 0)]
        [] (exPlaneZ (-15) (Color.new_f 1 0 0)).material
        (Vec3.new 0 0 (-15)) (Vec3.new 0 0 1) 1 = Color.new_f 1 0 0 ∧
    Raytracer.trace
        [exPlaneZ (-15) (Color.new_f 1 0 0), exPlaneZ (-1) (Color.new_f 0 1 0)]
        [] ⟨Vec3.new 0 0 (-20), Vec3.new 0 0 1⟩ 2 =
      some (Color.new_f 0 1 0) ∧
    Color.new_f 0 1 0 ≠ Color.new_f 1 0 0 := by
  have hA : Ray.trace ⟨Vec3.new 0 0 (-20), Vec3.new 0 0 1⟩
      (exPlaneZ (-15) (Color.new_f 1 0 0)) =
      some ⟨Color.new_f 1 1 1, Vec3.new 0 0 (-15), Vec3.new 0 0 1⟩ := by
    rw [Ray.trace_exPlaneZ]
    norm_num [Vec3.new, FLOAT_EPS]
  have hB : Ray.trace ⟨Vec3.new 0 0 (-20), Vec3.new 0 0 1⟩
      (exPlaneZ (-1) (Color.new_f 0 1 0)) =
      some ⟨Color.new_f 1 1 1, Vec3.new 0 0 (-1), Vec3.new 0 0 1⟩ := by
    rw [Ray.trace_exPlaneZ]
    norm_num [Vec3.new, FLOAT_EPS]
  have hlamB : ∀ lights pos nv, Raytracer.lambertian
      [exPlaneZ (-15) (Color.new_f 1 0 0), exPlaneZ (-1) (Color.new_f 0 1 0)]
      lights (exMatAmbient (Color.new_f 0 1 0)) pos nv = Color.zero := by
    intro lights pos nv
    rw [Raytracer.lambertian]
    simp [exMatAmbient, Color.is_zero]
  have hshB : Raytracer.shading
      [exPlaneZ (-15) (Color.new_f 1 0 0), exPlaneZ (-1) (Color.new_f 0 1 0)]
      [] (exPlaneZ (-1) (Color.new_f 0 1 0)).material (Vec3.new 0 0 (-1))
      (Vec3.new 0 0 1) 1 = Color.new_f 0 1 0 := by
    show Raytracer.shading _ _ (exMatAmbient (Color.new_f 0 1 0)) _ _ _ = _
    rw [Raytracer.shading_eq, Raytracer.specular_eq, hlamB]
    rw [if_pos (by simp [exMatAmbient, Color.is_zero] : (exMatAmbient
      (Color.new_f 0 1 0)).specular.is_zero)]
    simp [exMatAmbient, Color.zero, Color.new_f]
  have hlamA : Raytracer.lambertian
      [exPlaneZ (-15) (Color.new_f 1 0 0), exPlaneZ (-1) (Color.new_f 0 1 0)]
      [] (exMatAmbient (Color.new_f 1 0 0)) (Vec3.new 0 0 (-15))
      (Vec3.new 0 0 1) = Color.zero := by
    rw [Raytracer.lambertian]
    simp [exMatAmbient, Color.is_zero]
  have hshA : Raytracer.shading
      [exPlaneZ (-15) (Color.new_f 1 0 0), exPlaneZ (-1) (Color.new_f 0 1 0)]
      [] (exPlaneZ (-15) (Color.new_f 1 0 0)).material (Vec3.new 0 0 (-15))
      (Vec3.new 0 0 1) 1 = Color.new_f 1 0 0 := by
    show Raytracer.shading _ _ (exMatAmbient (Color.new_f 1 0 0)) _ _ _ = _
    rw [Raytracer.shading_eq, Raytracer.specular_eq, hlamA]
    rw [if_pos (by simp [exMatAmbient, Color.is_zero] : (exMatAmbient
      (Color.new_f 1 0 0)).specular.is_zero)]
    simp [exMatAmbient, Color.zero, Color.new_f]
  have hsel : Raytracer.selectHit ⟨Vec3.new 0 0 (-20), Vec3.new 0 0 1⟩
      [exPlaneZ (-15) (Color.new_f 1 0 0), exPlaneZ (-1) (Color.new_f 0 1 0)]
      = some (1, ⟨Color.new_f 1 1 1, Vec3.new 0 0 (-1), Vec3.new 0 0 1⟩,
          exPlaneZ (-1) (Color.new_f 0 1 0)) := by
    simp only [Raytracer.selectHit, Raytracer.selectHitGo, hA, hB]
    norm_num [Vec3.new, Vec3.length_squared]
  refine ⟨hA, hB, by norm_num [Vec3.new, Vec3.length_squared], ?_, hshA, ?_, ?_⟩
  · simp only [Ray.new, Vec3.normalize_e3]
  · rw [Raytracer.trace_eq, if_neg (by norm_num), hsel]
    dsimp only
    norm_num [hshB]
  · intro hcontr
    have hg := congrArg Color.g hcontr
    norm_num [Color.new_f] at hg

/-! ### C2: which lights does `trace_to_lights` keep? -/

/-- C2 (amended): for every hit position and object list, a light appears in
`trace_to_lights` iff **at least one** scene object records no hit for the
probe ray `Ray::new(pos, pos - light.pos)` (a ray pointing from the hit point
*away* from the light), the light being pushed once per such object — not
only when it cleared every object; and `lambertian` uses only the **first**
entry of the visible-lights list. -/
theorem claim_C2_light_visibility (world : List Object) (pos : Vec3) :
    (∀ (lights : List Light) (lp : Vec3) (li : ℝ),
      (lp, li) ∈ Raytracer.trace_to_lights world lights pos ↔
      ∃ light ∈ lights, light.pos = lp ∧ light.intensity = li ∧
        ∃ o ∈ world, (Ray.new pos (pos - light.pos)).trace o = none) ∧
    (∀ (material : Material) (nv : Vec3) (L1 L2 : List Light),
      (Raytracer.trace_to_lights world L1 pos).head? =
        (Raytracer.trace_to_lights world L2 pos).head? →
      Raytracer.lambertian world L1 material pos nv =
        Raytracer.lambertian world L2 material pos nv) := by
  constructor
  · intro lights lp li
    simp only [Raytracer.trace_to_lights, List.mem_flatten, List.mem_map]
    constructor
    · rintro ⟨l, ⟨light, hlight, rfl⟩, hmem⟩
      rcases List.mem_map.mp hmem with ⟨o, hof, heq⟩
      rcases List.mem_filter.mp hof with ⟨how, hp⟩
      have hnone : (Ray.new pos (pos - light.pos)).trace o = none := by
        simpa [Option.isNone_iff_eq_none] using hp
      have heq2 : light.pos = lp ∧ light.intensity = li := by
        constructor
        · exact congrArg Prod.fst heq
        · exact congrArg Prod.snd heq
      exact ⟨light, hlight, heq2.1, heq2.2, o, how, hnone⟩
    · rintro ⟨light, hlight, hpos, hint, o, how, hnone⟩
      refine ⟨_, ⟨light, hlight, rfl⟩, ?_⟩
      refine List.mem_map.mpr ⟨o, List.mem_filter.mpr ⟨how, ?_⟩, ?_⟩
      · simpa [Option.isNone_iff_eq_none] using hnone
      · rw [hpos, hint]
  · intro material nv L1 L2 hhead
    simp only [Raytracer.lambertian]
    rw [hhead]

/-- Witness for C2 (amended): with no objects, the visible-lights list is
empty for any light list, so `lambertian` gives the same color for two
different light lists. -/
theorem claim_C2_witness :
    Raytracer.lambertian [] [⟨Vec3.new 0 0 10, 1⟩]
      ⟨Color.new_f 1 1 1, Color.new_f 0 0 0, Color.new_f 1 1 1,
        Color.new_f 0 0 0⟩ (Vec3.new 0 0 0) (Vec3.new 0 0 1) =
    Raytracer.lambertian [] [⟨Vec3.new 0 0 10, 1⟩, ⟨Vec3.new 5 0 0, 2⟩]
      ⟨Color.new_f 1 1 1, Color.new_f 0 0 0, Color.new_f 1 1 1,
        Color.new_f 0 0 0⟩ (Vec3.new 0 0 0) (Vec3.new 0 0 1) :=
  (claim_C2_light_visibility [] (Vec3.new 0 0 0)).2
    ⟨Color.new_f 1 1 1, Color.new_f 0 0 0, Color.new_f 1 1 1,
      Color.new_f 0 0 0⟩ (Vec3.new 0 0 1)
    [⟨Vec3.new 0 0 10, 1⟩] [⟨Vec3.new 0 0 10, 1⟩, ⟨Vec3.new 5 0 0, 2⟩]
    (by simp [Raytracer.trace_to_lights])

/-- C2 counterexample: hit point at the origin, light at `(0,0,10)`, two
planes `z = 5` (between the point and the light) and `z = -5` (behind).  The
code's probe ray points away from the light, misses the plane `z = 5` and so
pushes the light into the visible list — even though the probe hits the plane
`z = -5` (the light did **not** clear every object), and even though a ray
toward the light is blocked by the plane `z = 5`. -/
theorem claim_C2_counterexample :
    Raytracer.trace_to_lights
        [exPlaneZ 5 (Color.new_f 1 0 0), exPlaneZ (-5) (Color.new_f 0 1 0)]
        [⟨Vec3.new 0 0 10, 1⟩] (Vec3.new 0 0 0) =
      [(Vec3.new 0 0 10, 1)] ∧
    (Ray.new (Vec3.new 0 0 0) (Vec3.new 0 0 0 - Vec3.new 0 0 10)).trace
        (exPlaneZ (-5) (Color.new_f 0 1 0)) ≠ none ∧
    (Ray.new (Vec3.new 0 0 0) (Vec3.new 0 0 10 - Vec3.new 0 0 0)).trace
        (exPlaneZ 5 (Color.new_f 1 0 0)) ≠ none := by
  have h100 : Real.sqrt 100 = 10 := by
    rw [show (100 : ℝ) = 10 ^ 2 by norm_num,
      Real.sqrt_sq (by norm_num : (0:ℝ) ≤ 10)]
  have hray2 : Ray.new (Vec3.new 0 0 0) (Vec3.new 0 0 0 - Vec3.new 0 0 10) =
      ⟨Vec3.new 0 0 0, Vec3.new 0 0 (-1)⟩ := by
    simp [Ray.new, Vec3.new, Vec3.normalize, Vec3.length, Vec3.length_squared]
  have hray3 : Ray.new (Vec3.new 0 0 0) (Vec3.new 0 0 10 - Vec3.new 0 0 0) =
      ⟨Vec3.new 0 0 0, Vec3.new 0 0 1⟩ := by
    simp [Ray.new, Vec3.new, Vec3.normalize, Vec3.length, Vec3.length_squared]
  have hw5 : Ray.trace ⟨Vec3.new 0 0 0, Vec3.new 0 0 (-1)⟩
      (exPlaneZ 5 (Color.new_f 1 0 0)) = none := by
    rw [Ray.trace_exPlaneZ]
    norm_num [Vec3.new, FLOAT_EPS]
  have hwm5 : Ray.trace ⟨Vec3.new 0 0 0, Vec3.new 0 0 (-1)⟩
      (exPlaneZ (-5) (Color.new_f 0 1 0)) =
      some ⟨Color.new_f 1 1 1, Vec3.new 0 0 (-5), Vec3.new 0 0 1⟩ := by
    rw [Ray.trace_exPlaneZ]
    norm_num [Vec3.new, FLOAT_EPS]
  have hto5 : Ray.trace ⟨Vec3.new 0 0 0, Vec3.new 0 0 1⟩
      (exPlaneZ 5 (Color.new_f 1 0 0)) =
      some ⟨Color.new_f 1 1 1, Vec3.new 0 0 5, Vec3.new 0 0 1⟩ := by
    rw [Ray.trace_exPlaneZ]
    norm_num [Vec3.new, FLOAT_EPS]
  refine ⟨?_, ?_, ?_⟩
  · simp only [Raytracer.trace_to_lights, List.map, hray2, List.filter,
      hw5, hwm5]
    simp
  · rw [hray2, hwm5]
    simp
  · rw [hray3, hto5]
    simp

/-! ### C7: depth 0 renders the background everywhere -/

theorem foldl_fixed {α : Type _} {β : Type _} (f : β → α → β)
    (hf : ∀ b a, f b a = b) : ∀ (l : List α) (b : β), l.foldl f b = b := by
  intro l
  induction l with
  | nil => intro b; rfl
  | cons a rest ih =>
      intro b
      rw [List.foldl_cons, hf, ih]

theorem Raytracer.raycast_of_trace_none (rt : Raytracer)
    (world : List Object) (lights : List Light)
    (h : ∀ ray, Raytracer.trace world lights ray rt.recurse_depth = none) :
    rt.raycast world lights =
      List.replicate rt.camera.viewport.pixels_y
        (List.replicate rt.camera.viewport.pixels_x rt.background_color) := by
  simp only [Raytracer.raycast]
  refine foldl_fixed _ ?_ _ _
  intro b rowy
  refine foldl_fixed _ ?_ _ _
  intro b2 colx
  rw [h]

/-- C7: for every scene, rendering with a non-positive recursion depth (the
claim's depth 0 case included) yields the all-background image, because
`trace` returns no contribution whenever the remaining depth is `≤ 0`. -/
theorem claim_C7_depth_zero_gives_background (rt : Raytracer)
    (world : List Object) (lights : List Light)
    (hd : rt.recurse_depth ≤ 0) :
    (∀ ray, Raytracer.trace world lights ray rt.recurse_depth = none) ∧
    rt.raycast world lights =
      List.replicate rt.camera.viewport.pixels_y
        (List.replicate rt.camera.viewport.pixels_x rt.background_color) := by
  have htr : ∀ ray, Raytracer.trace world lights ray rt.recurse_depth = none :=
    fun ray => Raytracer.trace_nonpos world lights ray hd
  exact ⟨htr, Raytracer.raycast_of_trace_none rt world lights htr⟩

/-- Witness for C7: a concrete 2×1 camera at depth 0 renders `[[bg, bg]]`. -/
theorem claim_C7_witness :
    (Raytracer.mk
      (Camera.mk (Vec3.new 0 0 0)
        (Rotation.mk (Vec3.new 1 0 0) (Vec3.new 0 1 0) (Vec3.new 0 0 1))
        (Viewport.mk 2 2 1) 1 1)
      (Color.new_f (1/4) (1/2) (3/4)) 0).raycast [] [] =
      [[Color.new_f (1/4) (1/2) (3/4), Color.new_f (1/4) (1/2) (3/4)]] := by
  have h := (claim_C7_depth_zero_gives_background
    (Raytracer.mk
      (Camera.mk (Vec3.new 0 0 0)
        (Rotation.mk (Vec3.new 1 0 0) (Vec3.new 0 1 0) (Vec3.new 0 0 1))
        (Viewport.mk 2 2 1) 1 1)
      (Color.new_f (1/4) (1/2) (3/4)) 0) [] [] (by norm_num)).2
  rw [h]
  rfl

/-! ### C3: the parallel render deadlocks whenever a pixel misses -/

theorem Raytracer.trace_nil_fixed (rt : Raytracer) (lights : List Light) :
    rt.par_sent [] lights = [] := by
  simp only [Raytracer.par_sent]
  refine foldl_fixed _ ?_ _ _
  intro b rowy
  refine foldl_fixed _ ?_ _ _
  intro b2 colx
  rw [Raytracer.trace_nil]

/-- C3 (divergence): on a 2×1 camera with an empty object list (depth 5),
every primary ray misses, so:
the sequential `raycast` returns the all-background 2×1 image; no pixel task
ever sends a message (`par_sent = []`), hence the only possible delivery
order is the empty one; and for it the `par_raycast` receiver — which waits
for `px * py = 2` messages while the function's own sender handle is still
alive — never returns, modelled as `none`.  The parallel render therefore
fails to return the sequential image. -/
theorem claim_C3_par_raycast_deadlocks_on_miss :
    (Raytracer.mk
      (Camera.mk (Vec3.new 0 0 0)
        (Rotation.mk (Vec3.new 1 0 0) (Vec3.new 0 1 0) (Vec3.new 0 0 1))
        (Viewport.mk 2 2 1) 1 1)
      (Color.new_f (1/4) (1/2) (3/4)) 5).raycast [] [] =
      [[Color.new_f (1/4) (1/2) (3/4), Color.new_f (1/4) (1/2) (3/4)]] ∧
    (Raytracer.mk
      (Camera.mk (Vec3.new 0 0 0)
        (Rotation.mk (Vec3.new 1 0 0) (Vec3.new 0 1 0) (Vec3.new 0 0 1))
        (Viewport.mk 2 2 1) 1 1)
      (Color.new_f (1/4) (1/2) (3/4)) 5).par_sent [] [] = [] ∧
    (Raytracer.mk
      (Camera.mk (Vec3.new 0 0 0)
        (Rotation.mk (Vec3.new 1 0 0) (Vec3.new 0 1 0) (Vec3.new 0 0 1))
        (Viewport.mk 2 2 1) 1 1)
      (Color.new_f (1/4) (1/2) (3/4)) 5).par_raycast [] [] [] = none := by
  refine ⟨?_, Raytracer.trace_nil_fixed _ _, ?_⟩
  · rw [Raytracer.raycast_of_trace_none _ _ _
      (fun ray => Raytracer.trace_nil _ _ _)]
    rfl
  · simp only [Raytracer.par_raycast]
    norm_num

/-! ### C4: every rendered channel stays in `[0, 1]` -/

theorem Color.InRange_zero : Color.zero.InRange := by
  simp [Color.InRange, Color.zero]

theorem Color.InRange.add {a c : Color} (ha : a.InRange) (hc : c.InRange) :
    (a + c).InRange := by
  obtain ⟨h1, h2, h3, h4, h5, h6⟩ := ha
  obtain ⟨g1, g2, g3, g4, g5, g6⟩ := hc
  refine ⟨?_, ?_, ?_, ?_, ?_, ?_⟩ <;>
    simp only [Color.add_channels] <;>
    first
      | exact le_min (by linarith) zero_le_one
      | exact min_le_right _ _

theorem Color.InRange.mul {a c : Color} (ha : a.InRange) (hc : c.InRange) :
    (a * c).InRange := by
  obtain ⟨h1, h2, h3, h4, h5, h6⟩ := ha
  obtain ⟨g1, g2, g3, g4, g5, g6⟩ := hc
  refine ⟨?_, ?_, ?_, ?_, ?_, ?_⟩ <;> simp only [Color.mul_channels] <;>
    first
      | exact mul_nonneg (by linarith) (by linarith)
      | exact mul_le_one₀ (by linarith) (by linarith) (by linarith)

theorem Color.InRange.scale {c : Color} (hc : c.InRange) {s : ℝ}
    (hs : 0 ≤ s) : (c.scale s).InRange := by
  obtain ⟨h1, h2, h3, h4, h5, h6⟩ := hc
  refine ⟨?_, ?_, ?_, ?_, ?_, ?_⟩ <;> simp only [Color.scale] <;>
    first
      | exact le_min (mul_nonneg (by linarith) hs) zero_le_one
      | exact min_le_right _ _

theorem Raytracer.lambertian_InRange (world : List Object)
    (lights : List Light) (mat : Material) (pos nv : Vec3)
    (hl : mat.lambert.InRange) :
    (Raytracer.lambertian world lights mat pos nv).InRange := by
  simp only [Raytracer.lambertian]
  split_ifs with hz
  · exact Color.InRange_zero
  · apply Color.InRange.scale hl
    apply le_min ?_ zero_le_one
    cases hhd : (Raytracer.trace_to_lights world lights pos).head? with
    | none => exact le_refl 0
    | some v =>
        obtain ⟨lp, li⟩ := v
        dsimp only
        split_ifs with hpos
        · exact le_of_lt hpos
        · exact le_refl 0

theorem Raytracer.range_invariant : ∀ n : ℕ,
    (∀ (world : List Object) (lights : List Light) (ray : Ray) (d : ℤ),
      3 * d.toNat ≤ n → (∀ o ∈ world, o.material.InRange) →
      ∀ c, Raytracer.trace world lights ray d = some c → c.InRange) ∧
    (∀ (world : List Object) (lights : List Light) (mat : Material)
      (pos nv : Vec3) (d : ℤ),
      3 * d.toNat + 2 ≤ n → (∀ o ∈ world, o.material.InRange) →
      mat.InRange →
      (Raytracer.shading world lights mat pos nv d).InRange) ∧
    (∀ (world : List Object) (lights : List Light) (mat : Material)
      (pos nv : Vec3) (d : ℤ),
      3 * d.toNat + 1 ≤ n → (∀ o ∈ world, o.material.InRange) →
      mat.InRange →
      (Raytracer.specular world lights mat pos nv d).InRange) := by
  intro n
  induction n using Nat.strong_induction_on with
  | _ n ih =>
    refine ⟨?_, ?_, ?_⟩
    · intro world lights ray d hn hw c hc
      rw [Raytracer.trace_eq] at hc
      by_cases hd0 : d ≤ 0
      · rw [if_pos hd0] at hc
        exact Option.noConfusion hc
      · rw [if_neg hd0] at hc
        revert hc
        cases hsel : Raytracer.selectHit ray world with
        | none => intro hc; exact Option.noConfusion hc
        | some hv =>
            obtain ⟨d0, rh0, o0⟩ := hv
            intro hc
            have hco : c = Raytracer.shading world lights o0.material
                rh0.intersection rh0.normal (d - 1) :=
              (Option.some.inj hc).symm
            subst hco
            obtain ⟨hm, -, -, -⟩ :=
              Raytracer.selectHit_some_spec _ _ _ _ _ hsel
            have hlt : 3 * (d - 1).toNat + 2 < n := by omega
            exact (ih _ hlt).2.1 world lights _ _ _ _ (le_refl _) hw
              (hw o0 hm)
    · intro world lights mat pos nv d hn hw hmat
      rw [Raytracer.shading_eq]
      have hlam := Raytracer.lambertian_InRange world lights mat pos nv
        hmat.2.2.1
      have hspec : (Raytracer.specular world lights mat pos nv d).InRange := by
        have hlt : 3 * d.toNat + 1 < n := by omega
        exact (ih _ hlt).2.2 world lights mat pos nv d (le_refl _) hw hmat
      exact Color.InRange.add
        (Color.InRange.add (Color.InRange.mul hmat.1 hlam) hspec)
        (Color.InRange.mul hmat.1 hmat.2.2.2)
    · intro world lights mat pos nv d hn hw hmat
      rw [Raytracer.specular_eq]
      split_ifs with hz
      · exact Color.InRange_zero
      · cases htr : Raytracer.trace world lights
            (Ray.new pos (pos.reflect nv)) (d - 1) with
        | none => exact Color.InRange_zero
        | some c =>
            have hlt : 3 * (d - 1).toNat < n := by omega
            have hc := (ih _ hlt).1 world lights _ (d - 1) (le_refl _) hw c htr
            exact Color.InRange.mul hc hmat.2.1

theorem Raytracer.trace_InRange (world : List Object) (lights : List Light)
    (ray : Ray) (d : ℤ) (hw : ∀ o ∈ world, o.material.InRange)
    {c : Color} (hc : Raytracer.trace world lights ray d = some c) :
    c.InRange :=
  (Raytracer.range_invariant (3 * d.toNat)).1 world lights ray d (le_refl _)
    hw c hc

theorem foldl_preserves {α : Type _} {β : Type _} (P : β → Prop)
    (f : β → α → β) (hf : ∀ b a, P b → P (f b a)) :
    ∀ (l : List α) (b : β), P b → P (l.foldl f b) := by
  intro l
  induction l with
  | nil => intro b hb; exact hb
  | cons a rest ih =>
      intro b hb
      rw [List.foldl_cons]
      exact ih _ (hf b a hb)

theorem Raytracer.setCell_preserves (image : List (List Color))
    (row col : ℕ) (c : Color) (hc : c.InRange)
    (himg : ∀ r ∈ image, ∀ x ∈ r, Color.InRange x) :
    ∀ r ∈ Raytracer.setCell image row col c, ∀ x ∈ r, Color.InRange x := by
  intro r hr x hx
  rcases List.mem_or_eq_of_mem_set hr with hr2 | rfl
  · exact himg r hr2 x hx
  · rcases List.mem_or_eq_of_mem_set hx with hx2 | rfl
    · cases hrow : image[row]? with
      | none =>
          rw [List.getD_eq_getElem?_getD, hrow] at hx2
          simp at hx2
      | some r0 =>
          rw [List.getD_eq_getElem?_getD, hrow] at hx2
          have hr0 : r0 ∈ image := List.getElem?_mem hrow
          exact himg r0 hr0 x (by simpa using hx2)
    · exact hc

/-- C4: if the background color and, for every object, the base color and the
`specular`/`lambert`/`ambient` coefficient colors have all channels in
`[0, 1]`, then — for any lights and any recursion depth — every cell of the
grid returned by `raycast` has all three channels in `[0, 1]`: the clamped
color addition and scaling never let an out-of-range value reach the image
buffer. -/
theorem claim_C4_output_channels_in_range (rt : Raytracer)
    (world : List Object) (lights : List Light)
    (hbg : rt.background_color.InRange)
    (hw : ∀ o ∈ world, o.material.InRange) :
    ∀ row ∈ rt.raycast world lights, ∀ c ∈ row, c.InRange := by
  simp only [Raytracer.raycast]
  apply foldl_preserves (fun image => ∀ r ∈ image, ∀ x ∈ r, Color.InRange x)
  · intro b rowy hb
    apply foldl_preserves (fun image => ∀ r ∈ image, ∀ x ∈ r, Color.InRange x)
    · intro b2 colx hb2
      cases htr : Raytracer.trace world lights
          (rt.camera.ray_from_pixel (colx.2 : ℝ) (-(rowy.2 : ℝ)))
          rt.recurse_depth with
      | none => exact hb2
      | some hit =>
          exact Raytracer.setCell_preserves _ _ _ _
            (Raytracer.trace_InRange world lights _ _ hw htr) hb2
    · exact hb
  · intro r hr x hx
    have hrep := List.eq_of_mem_replicate hr
    subst hrep
    have hxb := List.eq_of_mem_replicate hx
    subst hxb
    exact hbg

/-- Witness for C4: a concrete 2×1 render of the empty scene; the grid's
first cell is in range. -/
theorem claim_C4_witness :
    Color.InRange ((((Raytracer.mk
      (Camera.mk (Vec3.new 0 0 0)
        (Rotation.mk (Vec3.new 1 0 0) (Vec3.new 0 1 0) (Vec3.new 0 0 1))
        (Viewport.mk 2 2 1) 1 1)
      (Color.new_f (1/4) (1/2) (3/4)) 3).raycast [] []).getD 0 []).getD 0
        Color.zero) := by
  have hrc : (Raytracer.mk
      (Camera.mk (Vec3.new 0 0 0)
        (Rotation.mk (Vec3.new 1 0 0) (Vec3.new 0 1 0) (Vec3.new 0 0 1))
        (Viewport.mk 2 2 1) 1 1)
      (Color.new_f (1/4) (1/2) (3/4)) 3).raycast [] [] =
      [[Color.new_f (1/4) (1/2) (3/4), Color.new_f (1/4) (1/2) (3/4)]] := by
    rw [Raytracer.raycast_of_trace_none _ _ _
      (fun ray => Raytracer.trace_nil _ _ _)]
    rfl
  have h := claim_C4_output_channels_in_range
    (Raytracer.mk
      (Camera.mk (Vec3.new 0 0 0)
        (Rotation.mk (Vec3.new 1 0 0) (Vec3.new 0 1 0) (Vec3.new 0 0 1))
        (Viewport.mk 2 2 1) 1 1)
      (Color.new_f (1/4) (1/2) (3/4)) 3) [] []
    (by norm_num [Color.InRange, Color.new_f]) (by simp)
  have hcell := h [Color.new_f (1/4) (1/2) (3/4), Color.new_f (1/4) (1/2) (3/4)]
    (by rw [hrc]; simp) (Color.new_f (1/4) (1/2) (3/4)) (by simp)
  rw [hrc]
  simpa using hcell

end

end Raytrace
